import Mathlib

/-!
Shallow embedding of `src/zarrLoader.ts` (class `ZarrLoader`) from
manzt/vitessce-image-loader, together with proofs about the claims of the
specification.

Modelling conventions:
* A `ZarrArray` (from the external `zarr` library) is modelled by its
  metadata (`shape`, `chunks`, `dtype`) together with its two read
  operations, taken as arbitrary pure functions returning the resolved
  buffer of a successful read: `getRawChunk` over fixed integer
  coordinates and `getRaw` over coordinates where `none` stands for the
  JS `null` ("whole axis").  Buffers are `List Int`.
* JS array indexing `a[i]` is `List.getD`/`getElem?`, JS element
  assignment `a[i] = v` (always in-bounds in the well-formed cases the
  claims are about) is `List.set`.
* A method that can throw is modelled with `Except`/`Option`; the
  mutating `setChannelSelections` returns the resulting loader state
  together with an optional error, so that a throw before the final
  field assignment demonstrably leaves the state unchanged.
* `utils.ts` is not part of the given sources; its functions
  (`guessRgb`, `normalizeChannelSelection`, `ensureDecreasing`,
  `range`) are treated as the spec treats them: `guessRgb` and
  `normalizeChannelSelection` are arbitrary function parameters,
  `ensureDecreasing` is modelled from the spec, `range` is
  `List.range`.
-/

/-- An underlying chunked array (zarr.js `ZarrArray`) at the interface the
loader consumes: metadata plus the buffers its two read operations resolve
with.  `getRawChunk` takes a fully fixed coordinate vector; `getRaw` takes a
vector whose `none` entries mean "whole axis" (JS `null`). -/
structure ZarrArr where
  shape : List Nat
  chunks : List Nat
  dtype : String
  getRawChunk : List Int → List Int
  getRaw : List (Option Int) → List Int

/-- The constructor argument `data: ZarrArray | ZarrArray[]`. -/
inductive ZarrData where
  | single (a : ZarrArr)
  | pyramid (arrs : List ZarrArr)

/-- The JS value produced by `_getSource`: either an actual array, or — via
the unchecked TS cast `this._data as ZarrArray` taken on a pyramid with no
level, or an out-of-range pyramid index — a non-array value. -/
inductive SourceVal where
  | arr (a : ZarrArr)
  | arrList (arrs : List ZarrArr)
  | undef

/-- A junk array used as the `undefined` default of out-of-range JS
indexing in positions the well-formed executions never reach. -/
def defaultZarr : ZarrArr :=
  ⟨[], [], "", fun _ => [], fun _ => []⟩

/-- The state of a `ZarrLoader` instance (public and private fields). -/
structure Loader where
  type : String
  isRgb : Bool
  scale : Int
  translate : List Int
  dimensions : Option (List String)
  dtype : String
  tileSize : Nat
  numLevels : Nat
  xIndex : Nat
  yIndex : Nat
  data : ZarrData
  channelSelections : List (List Int)

/-- Modelled from the spec: `isStrictlyDecreasing(shapeSequence)` of the
missing `utils.ts` — every adjacent pair of shapes is strictly decreasing in
every dimension, and (spec §4.1) an empty sequence is rejected. -/
def ensureDecreasing : List (List Nat) → Bool
  | [] => false
  | [_] => true
  | s1 :: s2 :: rest =>
    (s2.zip s1).all (fun p => p.1 < p.2) && ensureDecreasing (s2 :: rest)

/-- The constructor's computation of the `isRgb` field:
`this.isRgb = isRgb ? isRgb : guessRgb(base.shape)` — a JS truthiness test,
so an argument of `false` falls through to the heuristic exactly like an
omitted argument. -/
def mkIsRgb (guessRgb : List Nat → Bool) (base : ZarrArr) (isRgbArg : Option Bool) : Bool :=
  match isRgbArg with
  | some true => true
  | _ => guessRgb base.shape

/-- The constructor's spatial axis positions, derived from `isRgb`:
`length - 2 / length - 3` when interleaved, else `length - 1 / length - 2`. -/
def mkXIndex (base : ZarrArr) (isRgb : Bool) : Nat :=
  if isRgb then base.shape.length - 2 else base.shape.length - 1

def mkYIndex (base : ZarrArr) (isRgb : Bool) : Nat :=
  if isRgb then base.shape.length - 3 else base.shape.length - 2

/-- The part of the constructor after the pyramid check: computes every
field from the base array and the arguments. -/
def mkLoaderBase (guessRgb : List Nat → Bool) (base : ZarrArr) (data : ZarrData)
    (numLevels : Nat) (dimensions : Option (List String)) (isRgbArg : Option Bool)
    (scale : Int) (translate : List Int) : Except String Loader :=
  if (match dimensions with
      | some ds => ds.length != base.shape.length
      | none => false) then
    Except.error "Dimension labels does not match image with shape"
  else
    Except.ok
      { type := "zarr"
        isRgb := mkIsRgb guessRgb base isRgbArg
        scale := scale
        translate := translate
        dimensions := dimensions
        dtype := base.dtype
        tileSize := base.chunks.getD (mkXIndex base (mkIsRgb guessRgb base isRgbArg)) 0
        numLevels := numLevels
        xIndex := mkXIndex base (mkIsRgb guessRgb base isRgbArg)
        yIndex := mkYIndex base (mkIsRgb guessRgb base isRgbArg)
        data := data
        channelSelections := [List.replicate base.shape.length 0] }

/-- The `ZarrLoader` constructor.  Throws when a pyramid is not strictly
decreasing in shape, or when dimension labels are present with the wrong
length. -/
def mkLoader (guessRgb : List Nat → Bool) (data : ZarrData)
    (dimensions : Option (List String)) (isRgbArg : Option Bool)
    (scale : Int) (translate : List Int) : Except String Loader :=
  match data with
  | ZarrData.pyramid arrs =>
    if ensureDecreasing (arrs.map (fun d => d.shape)) then
      mkLoaderBase guessRgb (arrs.headD defaultZarr) data arrs.length dimensions
        isRgbArg scale translate
    else
      Except.error "Arrays provided must be decreasing in shape"
  | ZarrData.single a =>
    mkLoaderBase guessRgb a data 1 dimensions isRgbArg scale translate

/-- Getter `isPyramid`: `Array.isArray(this._data)`. -/
def Loader.isPyramid (l : Loader) : Bool :=
  match l.data with
  | ZarrData.pyramid _ => true
  | ZarrData.single _ => false

/-- Getter `base`: `this.isPyramid ? this._data[0] : this._data`. -/
def Loader.base (l : Loader) : ZarrArr :=
  match l.data with
  | ZarrData.pyramid arrs => arrs.headD defaultZarr
  | ZarrData.single a => a

/-- Private getter `_isUnchunkedMultiChannel`:
`this._yIndex - 1 >= 0 ? this.base.chunks[this._yIndex - 1] > 1 : false`. -/
def isUnchunkedMultiChannel (l : Loader) : Bool :=
  if 1 ≤ l.yIndex then l.base.chunks.getD (l.yIndex - 1) 0 > 1 else false

/-- Private method `_getSource(z?)`:
`typeof z === 'number' && this.isPyramid ? this._data[z] : this._data`.
When the loader is a pyramid and `z` is absent, the unchecked cast hands the
raw pyramid list back; an out-of-range pyramid index yields `undefined`. -/
def getSource (l : Loader) (z : Option Nat) : SourceVal :=
  match z, l.data with
  | some k, ZarrData.pyramid arrs =>
    match arrs[k]? with
    | some a => SourceVal.arr a
    | none => SourceVal.undef
  | none, ZarrData.pyramid arrs => SourceVal.arrList arrs
  | _, ZarrData.single a => SourceVal.arr a

/-- Private method `_decodeChannels(chunkData)`: splits one packed buffer
into `channelChunkSize` consecutive views (`subarray`) of length
`chunkData.length / channelChunkSize` each. -/
def decodeChannels (l : Loader) (chunkData : List Int) : List (List Int) :=
  let channelChunkSize := l.base.chunks.getD (l.yIndex - 1) 0
  let offset := chunkData.length / channelChunkSize
  (List.range channelChunkSize).map
    (fun i => (chunkData.drop (offset * i)).take offset)

/-- Method `getTile({x, y, z})`.  Resolves the source; a non-array source
(the pyramid-without-level cast, or an out-of-range level) makes the JS
method calls fail, modelled by `none`.  Otherwise one chunk read per active
channel selection, with the selection's Y entry overwritten by `y` and its
X entry by `x`; if the image is packed multichannel the single buffer is
split into channel views. -/
def getTile (l : Loader) (x y : Int) (z : Option Nat) : Option (List (List Int)) :=
  match getSource l z with
  | SourceVal.arr source =>
    let data := l.channelSelections.map (fun key =>
      let chunkKey := (key.set l.yIndex y).set l.xIndex x
      source.getRawChunk chunkKey)
    if isUnchunkedMultiChannel l then
      some (decodeChannels l (data.headD []))
    else
      some data
  | _ => none

/-- The result record of `getRaster`. -/
structure RasterData where
  data : List (List Int)
  width : Nat
  height : Nat
deriving DecidableEq

/-- Method `getRaster({z})`.  One plane read (`getRaw`) per active channel
selection with Y and X set to `null`; if RGB the last axis is also opened,
else if packed multichannel the axis before Y is also opened.  Width and
height come from the resolved source's shape. -/
def getRaster (l : Loader) (z : Option Nat) : Option RasterData :=
  match getSource l z with
  | SourceVal.arr source =>
    let data := l.channelSelections.map (fun key =>
      let chunkKey : List (Option Int) :=
        ((key.map some).set l.yIndex none).set l.xIndex none
      let chunkKey :=
        if l.isRgb then chunkKey.set (chunkKey.length - 1) none
        else if isUnchunkedMultiChannel l then chunkKey.set (l.yIndex - 1) none
        else chunkKey
      source.getRaw chunkKey)
    let width := source.shape.getD l.xIndex 0
    let height := source.shape.getD l.yIndex 0
    if isUnchunkedMultiChannel l then
      some ⟨decodeChannels l (data.headD []), width, height⟩
    else
      some ⟨data, width, height⟩
  | _ => none

/-- An error value at the interface `onTileError` consumes: its message,
as a character list. -/
structure ErrVal where
  message : List Char
deriving DecidableEq

/-- JS `String.prototype.includes`: `pat` occurs as a contiguous substring
of `msg`. -/
def strIncludes (msg pat : List Char) : Bool :=
  (List.range (msg.length + 1)).any (fun i => pat.isPrefixOf (msg.drop i))

/-- Modelled from the spec: the store's distinguishable out-of-bounds
condition (`OutOfBoundsRead`), which the code identifies by the error
message containing the substring `RangeError`. -/
def isOutOfBoundsErr (e : ErrVal) : Bool :=
  strIncludes e.message "RangeError".toList

/-- Method `onTileError(err)`: rethrows (`some err`) unless the message
contains `RangeError`, in which case it returns normally (`none`). -/
def onTileError (e : ErrVal) : Option ErrVal :=
  if !(strIncludes e.message "RangeError".toList) then some e else none

/-- One entry of a caller-supplied channel selection:
`DimensionSelection | number`.  Named entries (`DimensionSelection`, from
the missing `types.ts`) are kept abstract as a label. -/
inductive SelEntry where
  | num (n : Int)
  | named (label : String)
deriving DecidableEq

/-- The argument of `setChannelSelections`: a single selection or a list of
selections. -/
inductive SelInput where
  | single (sel : List SelEntry)
  | multiple (sels : List (List SelEntry))

/-- The wrapping step of `setChannelSelections`: a single selection becomes
a one-element list (`Array.isArray(channelSelections[0])` — note a JS empty
list also fails that test and is wrapped). -/
def wrapSelections : SelInput → List (List SelEntry)
  | SelInput.single sel => [sel]
  | SelInput.multiple sels => if sels.isEmpty then [[]] else sels

/-- The normalization map of `setChannelSelections`: without dimension
labels every entry must already be numeric, otherwise the call throws; with
labels the external `normalizeChannelSelection` (a parameter here) is
applied and its failures propagate. -/
def normalizeInput
    (normalize : List String → List SelEntry → Except String (List Int))
    (l : Loader) (input : SelInput) : Except String (List (List Int)) :=
  (wrapSelections input).mapM (fun sel =>
    match l.dimensions with
    | none =>
      if sel.all (fun e => match e with | SelEntry.num _ => true | _ => false) then
        Except.ok (sel.filterMap (fun e =>
          match e with | SelEntry.num n => some n | _ => none))
      else
        Except.error "Cannot used named selection to index image with specified dimensions."
    | some dims => normalize dims sel)

/-- The validation loop of `setChannelSelections`: each normalized
selection must have the base rank, and may not select a nonzero index on an
axis whose chunk size exceeds one. -/
def validateSelections (l : Loader) : List (List Int) → Option String
  | [] => none
  | sel :: rest =>
    if sel.length ≠ l.base.shape.length then
      some "Normalized selections do not correspond to image shape"
    else if sel.enum.any (fun p => p.2 ≠ 0 && l.base.chunks.getD p.1 0 > 1) then
      some "Cannot set selection for dimension with chunk size greater than one."
    else validateSelections l rest

/-- Method `setChannelSelections(channelSelections)` as a state
transformer: returns the resulting loader state and, when the method
throws, the error.  The field assignment is the last statement of the
method, so every throwing path returns the state unchanged. -/
def setChannelSelections
    (normalize : List String → List SelEntry → Except String (List Int))
    (l : Loader) (input : SelInput) : Loader × Option String :=
  match normalizeInput normalize l input with
  | Except.error e => (l, some e)
  | Except.ok nextChannelSelections =>
    if (l.isRgb || isUnchunkedMultiChannel l) && nextChannelSelections.length > 1 then
      (l, some "Cannot specify multiple channel selections for RGB/A image or multichannel image with chunk sizes greater than one.")
    else
      match validateSelections l nextChannelSelections with
      | some e => (l, some e)
      | none => ({ l with channelSelections := nextChannelSelections }, none)

/-- The raster read coordinate for one selection as the code computes it
(and as the amended claim states it): Y and X opened; additionally the
final axis when the array is RGB-interleaved, or else — only when it is not
RGB-interleaved — the axis before Y when it is packed-multichannel. -/
def rasterKeyAmended (l : Loader) (key : List Int) : List (Option Int) :=
  let chunkKey : List (Option Int) :=
    ((key.map some).set l.yIndex none).set l.xIndex none
  if l.isRgb then chunkKey.set (chunkKey.length - 1) none
  else if isUnchunkedMultiChannel l then chunkKey.set (l.yIndex - 1) none
  else chunkKey

/-- The raster read coordinate for one selection as the original claim
describes it: Y and X opened, the final axis additionally opened when the
array is RGB-interleaved and the axis before Y additionally opened when it
is packed-multichannel, both openings applying when both conditions hold. -/
def claimRasterKey (l : Loader) (key : List Int) : List (Option Int) :=
  let ck1 : List (Option Int) :=
    ((key.map some).set l.yIndex none).set l.xIndex none
  let ck2 := if l.isRgb then ck1.set (ck1.length - 1) none else ck1
  if isUnchunkedMultiChannel l then ck2.set (l.yIndex - 1) none else ck2

/-- A placeholder loader used as the (unreachable) default when a sample
loader is extracted from a successful construction. -/
def junkLoader : Loader :=
  ⟨"", false, 0, [], none, "", 0, 0, 0, 0, ZarrData.single defaultZarr, []⟩

/-- A 3-channel unchunked (non-packed) multiscale-free array: channel axis
has chunk size 1, so per-channel selections are allowed.  Its reads report
the coordinates they were called with. -/
def multiArr : ZarrArr :=
  ⟨[3, 4, 4], [1, 4, 4], "<u2",
   fun key => key ++ [100],
   fun key => key.map (fun o => match o with | none => -7 | some v => v)⟩

/-- The freshly constructed loader over `multiArr`. -/
def multiLoader0 : Loader :=
  (mkLoader (fun _ => false) (ZarrData.single multiArr) none none 1 [0, 0]).toOption.getD
    junkLoader

/-- `multiLoader0` after selecting all three channels. -/
def multiLoader : Loader :=
  (setChannelSelections (fun _ _ => Except.error "unused") multiLoader0
    (SelInput.multiple
      [[SelEntry.num 0, SelEntry.num 0, SelEntry.num 0],
       [SelEntry.num 1, SelEntry.num 0, SelEntry.num 0],
       [SelEntry.num 2, SelEntry.num 0, SelEntry.num 0]])).1

/-- A packed-multichannel array: the axis before Y has chunk size 2, so two
channels live in one physical chunk of 8 elements. -/
def packedArr : ZarrArr :=
  ⟨[2, 4, 4], [2, 4, 4], "<u2",
   fun _ => [0, 1, 2, 3, 4, 5, 6, 7],
   fun _ => []⟩

/-- The freshly constructed loader over `packedArr`. -/
def packedLoader : Loader :=
  (mkLoader (fun _ => false) (ZarrData.single packedArr) none none 1 [0, 0]).toOption.getD
    junkLoader

/-- An array that is simultaneously RGB-interleaved (rank 4, forced by the
constructor argument) and packed-multichannel (`chunks[yIndex - 1] = 2`).
Its plane read reports which coordinates were fixed and which were open. -/
def rgbPackedArr : ZarrArr :=
  ⟨[2, 8, 8, 3], [2, 8, 8, 3], "<u2",
   fun _ => [],
   fun key => key.map (fun o => match o with | none => -7 | some v => v)⟩

/-- The loader over `rgbPackedArr`, with the interleaved layout forced. -/
def rgbPackedLoader : Loader :=
  (mkLoader (fun _ => false) (ZarrData.single rgbPackedArr) none (some true) 1
    [0, 0]).toOption.getD junkLoader

/-- An array whose packed channel count is 3, matched to a buffer of
length 12 in the splitting example. -/
def splitArr : ZarrArr :=
  ⟨[3, 2, 2], [3, 2, 2], "<u2", fun _ => [], fun _ => []⟩

/-- The loader over `splitArr`. -/
def splitLoader : Loader :=
  (mkLoader (fun _ => false) (ZarrData.single splitArr) none none 1 [0, 0]).toOption.getD
    junkLoader

/-- The base level of a two-level pyramid. -/
def pyrArrA : ZarrArr :=
  ⟨[4, 4], [2, 2], "<u2", fun _ => [], fun _ => []⟩

/-- The second, strictly smaller level of the pyramid. -/
def pyrArrB : ZarrArr :=
  ⟨[2, 2], [1, 1], "<u2", fun _ => [], fun _ => []⟩

/-- A loader constructed from the two-level pyramid. -/
def pyrLoader : Loader :=
  (mkLoader (fun _ => false) (ZarrData.pyramid [pyrArrA, pyrArrB]) none none 1
    [0, 0]).toOption.getD junkLoader

/-- An error carrying the store's out-of-bounds message. -/
def oobErr : ErrVal :=
  ⟨"RangeError: out of bounds".toList⟩

/-- An unrelated store error. -/
def otherErr : ErrVal :=
  ⟨"network failure".toList⟩

/-- The loader states reachable through the public interface: a successful
construction, followed by any sequence of (successful or failed)
`setChannelSelections` calls with any normalization function. -/
inductive Reachable : Loader → Prop where
  | construct (guessRgb : List Nat → Bool) (data : ZarrData)
      (dimensions : Option (List String)) (isRgbArg : Option Bool)
      (scale : Int) (translate : List Int) (l : Loader) :
      mkLoader guessRgb data dimensions isRgbArg scale translate = Except.ok l →
      Reachable l
  | update (normalize : List String → List SelEntry → Except String (List Int))
      (l : Loader) (input : SelInput) :
      Reachable l →
      Reachable (setChannelSelections normalize l input).1

theorem getD_replicate_zero (n i : Nat) : (List.replicate n (0 : Int)).getD i 0 = 0 := by
  induction n generalizing i with
  | zero => rfl
  | succ n ih =>
    cases i with
    | zero => rfl
    | succ j => simp [List.replicate_succ, List.getD_cons_succ, ih j]

theorem enumFrom_chunk_any_false (chunks : List Nat) :
    ∀ (sel : List Int) (k : Nat),
      ((sel.enumFrom k).any (fun p => p.2 ≠ 0 && chunks.getD p.1 0 > 1)) = false →
      ∀ i : Nat, 1 < chunks.getD (k + i) 0 → sel.getD i 0 = 0 := by
  intro sel
  induction sel with
  | nil => intro k _ i _; rfl
  | cons a as ih =>
    intro k h i hi
    rw [List.enumFrom_cons, List.any_cons, Bool.or_eq_false_iff] at h
    obtain ⟨h1, h2⟩ := h
    cases i with
    | zero =>
      rw [List.getD_cons_zero]
      rw [Bool.and_eq_false_iff] at h1
      rcases h1 with h1 | h1
      · simpa using h1
      · rw [Nat.add_zero] at hi
        exact absurd hi (by simpa using h1)
    | succ j =>
      rw [List.getD_cons_succ]
      apply ih (k + 1) h2 j
      have harith : k + 1 + j = k + (j + 1) := by omega
      rw [harith]
      exact hi

theorem enumFrom_chunk_any_true (chunks : List Nat) :
    ∀ (sel : List Int) (k i : Nat), i < sel.length → sel.getD i 0 ≠ 0 →
      1 < chunks.getD (k + i) 0 →
      ((sel.enumFrom k).any (fun p => p.2 ≠ 0 && chunks.getD p.1 0 > 1)) = true := by
  intro sel
  induction sel with
  | nil => intro k i hi; exact absurd hi (by simp)
  | cons a as ih =>
    intro k i hi hnz hch
    rw [List.enumFrom_cons, List.any_cons, Bool.or_eq_true]
    cases i with
    | zero =>
      left
      rw [List.getD_cons_zero] at hnz
      rw [Nat.add_zero] at hch
      simp only [Bool.and_eq_true, decide_eq_true_eq]
      exact ⟨hnz, hch⟩
    | succ j =>
      right
      rw [List.getD_cons_succ] at hnz
      apply ih (k + 1) j (by simpa using hi) hnz
      have harith : k + 1 + j = k + (j + 1) := by omega
      rw [harith]
      exact hch

theorem validateSelections_cons (l : Loader) (s : List Int) (rest : List (List Int)) :
    validateSelections l (s :: rest) =
      if s.length ≠ l.base.shape.length then
        some "Normalized selections do not correspond to image shape"
      else if s.enum.any (fun p => p.2 ≠ 0 && l.base.chunks.getD p.1 0 > 1) then
        some "Cannot set selection for dimension with chunk size greater than one."
      else validateSelections l rest := rfl

theorem validateSelections_isSome (l : Loader) :
    ∀ sels : List (List Int),
      (∃ sel ∈ sels, sel.length ≠ l.base.shape.length ∨
        ∃ i : Nat, i < sel.length ∧ sel.getD i 0 ≠ 0 ∧ 1 < l.base.chunks.getD i 0) →
      (validateSelections l sels).isSome = true := by
  intro sels
  induction sels with
  | nil => rintro ⟨sel, hmem, _⟩; exact absurd hmem (by simp)
  | cons s rest ih =>
    rintro ⟨sel, hmem, hbad⟩
    rw [validateSelections_cons]
    by_cases h1 : s.length ≠ l.base.shape.length
    · rw [if_pos h1]; rfl
    · rw [if_neg h1]
      by_cases h2 :
        (s.enum.any (fun p => p.2 ≠ 0 && l.base.chunks.getD p.1 0 > 1)) = true
      · rw [if_pos h2]; rfl
      · rw [if_neg h2]
        apply ih
        rcases List.mem_cons.mp hmem with rfl | htail
        · exfalso
          rcases hbad with hlen | ⟨i, hi, hnz, hch⟩
          · exact h1 hlen
          · exact h2 (enumFrom_chunk_any_true l.base.chunks sel 0 i hi hnz
              (by rw [Nat.zero_add]; exact hch))
        · exact ⟨sel, htail, hbad⟩

theorem validateSelections_none (l : Loader) :
    ∀ sels : List (List Int), validateSelections l sels = none →
      ∀ sel ∈ sels,
        sel.length = l.base.shape.length ∧
        ∀ i : Nat, 1 < l.base.chunks.getD i 0 → sel.getD i 0 = 0 := by
  intro sels
  induction sels with
  | nil => intro _ sel hmem; exact absurd hmem (by simp)
  | cons s rest ih =>
    intro h sel hmem
    rw [validateSelections_cons] at h
    by_cases h1 : s.length ≠ l.base.shape.length
    · rw [if_pos h1] at h
      exact absurd h (by simp)
    · rw [if_neg h1] at h
      by_cases h2 :
        (s.enum.any (fun p => p.2 ≠ 0 && l.base.chunks.getD p.1 0 > 1)) = true
      · rw [if_pos h2] at h
        exact absurd h (by simp)
      · rw [if_neg h2] at h
        rcases List.mem_cons.mp hmem with rfl | htail
        · refine ⟨by omega, ?_⟩
          intro i hch
          exact enumFrom_chunk_any_false l.base.chunks sel 0
            (by simpa using h2) i (by rw [Nat.zero_add]; exact hch)
        · exact ih h sel htail

theorem mkLoaderBase_ok (g : List Nat → Bool) (base : ZarrArr) (data : ZarrData)
    (n : Nat) (dims : Option (List String)) (r : Option Bool) (s : Int)
    (t : List Int) (l : Loader)
    (h : mkLoaderBase g base data n dims r s t = Except.ok l) :
    l.data = data ∧
    l.channelSelections = [List.replicate base.shape.length 0] ∧
    l.isRgb = mkIsRgb g base r ∧
    l.xIndex = mkXIndex base (mkIsRgb g base r) ∧
    l.yIndex = mkYIndex base (mkIsRgb g base r) := by
  unfold mkLoaderBase at h
  split at h
  · exact Except.noConfusion h
  · cases h
    exact ⟨rfl, rfl, rfl, rfl, rfl⟩

theorem mkLoader_ok (g : List Nat → Bool) (data : ZarrData)
    (dims : Option (List String)) (r : Option Bool) (s : Int) (t : List Int)
    (l : Loader) (h : mkLoader g data dims r s t = Except.ok l) :
    l.data = data ∧
    l.channelSelections = [List.replicate l.base.shape.length 0] ∧
    l.isRgb = mkIsRgb g l.base r := by
  cases data with
  | pyramid arrs =>
    rw [show mkLoader g (ZarrData.pyramid arrs) dims r s t =
        (if ensureDecreasing (arrs.map (fun d => d.shape)) then
          mkLoaderBase g (arrs.headD defaultZarr) (ZarrData.pyramid arrs)
            arrs.length dims r s t
        else Except.error "Arrays provided must be decreasing in shape") from rfl] at h
    split at h
    · obtain ⟨h1, h2, h3, _⟩ := mkLoaderBase_ok _ _ _ _ _ _ _ _ _ h
      have hbase : l.base = arrs.headD defaultZarr := by
        unfold Loader.base; rw [h1]
      exact ⟨h1, by rw [h2, hbase], by rw [h3, hbase]⟩
    · exact Except.noConfusion h
  | single a =>
    rw [show mkLoader g (ZarrData.single a) dims r s t =
        mkLoaderBase g a (ZarrData.single a) 1 dims r s t from rfl] at h
    obtain ⟨h1, h2, h3, _⟩ := mkLoaderBase_ok _ _ _ _ _ _ _ _ _ h
    have hbase : l.base = a := by
      unfold Loader.base; rw [h1]
    exact ⟨h1, by rw [h2, hbase], by rw [h3, hbase]⟩

theorem getTileEq (l : Loader) (x y : Int) (z : Option Nat) (a : ZarrArr)
    (hsrc : getSource l z = SourceVal.arr a)
    (hnp : isUnchunkedMultiChannel l = false) :
    getTile l x y z =
      some (l.channelSelections.map (fun key =>
        a.getRawChunk ((key.set l.yIndex y).set l.xIndex x))) := by
  simp [getTile, hsrc, hnp]

theorem getRasterEq (l : Loader) (z : Option Nat) (a : ZarrArr)
    (hsrc : getSource l z = SourceVal.arr a) :
    getRaster l z = some
      { data :=
          if isUnchunkedMultiChannel l then
            decodeChannels l ((l.channelSelections.map (fun key =>
              a.getRaw (rasterKeyAmended l key))).headD [])
          else
            l.channelSelections.map (fun key => a.getRaw (rasterKeyAmended l key))
        width := a.shape.getD l.xIndex 0
        height := a.shape.getD l.yIndex 0 } := by
  cases hm : isUnchunkedMultiChannel l <;>
    simp [getRaster, rasterKeyAmended, hsrc, hm]

theorem flatten_take_chunks (off : Nat) :
    ∀ (n : Nat) (buf : List Int), buf.length = n * off →
      ((List.range n).map (fun i => (buf.drop (off * i)).take off)).flatten = buf := by
  intro n
  induction n with
  | zero =>
    intro buf h
    rw [Nat.zero_mul] at h
    simp [List.eq_nil_of_length_eq_zero h]
  | succ n ih =>
    intro buf h
    have hcongr : ((fun i => (buf.drop (off * i)).take off) ∘ Nat.succ) =
        (fun i => (((buf.drop off).drop (off * i)).take off)) := by
      funext i
      have harith : off * Nat.succ i = off + off * i := by
        rw [Nat.mul_succ]; omega
      simp only [Function.comp_apply, List.drop_drop, harith]
    rw [List.range_succ_eq_map, List.map_cons, List.map_map, hcongr,
      List.flatten_cons]
    rw [ih (buf.drop off) (by rw [List.length_drop, h, Nat.succ_mul]; omega)]
    rw [Nat.mul_zero, List.drop_zero, List.take_append_drop]

theorem decodeChannels_getElem (l : Loader) (buf : List Int) (i : Nat)
    (hi : i < l.base.chunks.getD (l.yIndex - 1) 0) :
    (decodeChannels l buf)[i]? =
      some ((buf.drop ((buf.length / l.base.chunks.getD (l.yIndex - 1) 0) * i)).take
        (buf.length / l.base.chunks.getD (l.yIndex - 1) 0)) := by
  unfold decodeChannels
  rw [List.getElem?_map, List.getElem?_range hi]
  rfl

/-- C1 (counterexample): on a packed-multichannel array the claim "getTile
returns one buffer per active channel selection" fails — the freshly
constructed loader over `packedArr` has exactly one active selection, yet
`getTile` returns two buffers (the single packed chunk split into its two
channel views). -/
theorem getTile_packed_counterexample :
    isUnchunkedMultiChannel packedLoader = true ∧
    packedLoader.channelSelections.length = 1 ∧
    (getTile packedLoader 0 0 none).map List.length = some 2 ∧
    getTile packedLoader 0 0 none = some [[0, 1, 2, 3], [4, 5, 6, 7]] :=
  ⟨rfl, rfl, rfl, rfl⟩

/-- C1 (amended): for a loader that is not packed-multichannel, on a tile
request whose level resolves to an actual array, `getTile` returns exactly
one buffer per active channel selection, in selection order, where the
buffer for selection `key` is the store's chunk read at `key` with its
Y-axis entry overwritten by `y` and its X-axis entry by `x`; consequently
the number of returned buffers equals the number of active selections. -/
theorem getTile_nonpacked_spec (l : Loader) (x y : Int) (z : Option Nat)
    (a : ZarrArr) (hsrc : getSource l z = SourceVal.arr a)
    (hnp : isUnchunkedMultiChannel l = false) :
    getTile l x y z =
      some (l.channelSelections.map (fun key =>
        a.getRawChunk ((key.set l.yIndex y).set l.xIndex x))) ∧
    (getTile l x y z).map List.length = some l.channelSelections.length := by
  have h1 := getTileEq l x y z a hsrc hnp
  refine ⟨h1, ?_⟩
  rw [h1]
  simp

/-- C1 (witness): the three-selection loader over the non-packed `multiArr`
satisfies the hypotheses of `getTile_nonpacked_spec`, and a tile request
returns the three per-selection chunk reads in order. -/
theorem getTile_nonpacked_spec_witness :
    getSource multiLoader none = SourceVal.arr multiArr ∧
    isUnchunkedMultiChannel multiLoader = false ∧
    getTile multiLoader 3 2 none =
      some (multiLoader.channelSelections.map (fun key =>
        multiArr.getRawChunk ((key.set multiLoader.yIndex 2).set
          multiLoader.xIndex 3))) ∧
    getTile multiLoader 3 2 none =
      some [[0, 2, 3, 100], [1, 2, 3, 100], [2, 2, 3, 100]] :=
  ⟨rfl, rfl, (getTile_nonpacked_spec multiLoader 3 2 none multiArr rfl rfl).1, rfl⟩

/-- C2 (counterexample): on an array that is simultaneously RGB-interleaved
and packed-multichannel, the claim that both extra axes are opened fails:
the code's else-if opens only the final (interleaved) axis, so the buffer
actually read differs from the buffer the claim's coordinate vector (with
the axis before Y also opened) would produce. -/
theorem getRaster_rgb_packed_counterexample :
    rgbPackedLoader.isRgb = true ∧
    isUnchunkedMultiChannel rgbPackedLoader = true ∧
    (getRaster rgbPackedLoader none).map RasterData.data = some [[0, -7], [-7, -7]] ∧
    decodeChannels rgbPackedLoader
      ((rgbPackedLoader.channelSelections.map (fun key =>
        rgbPackedArr.getRaw (claimRasterKey rgbPackedLoader key))).headD []) =
      [[-7, -7], [-7, -7]] ∧
    (some [[0, -7], [-7, -7]] : Option (List (List Int))) ≠
      some [[-7, -7], [-7, -7]] :=
  ⟨rfl, rfl, rfl, rfl, by decide⟩

/-- C2 (amended): on a raster request whose level resolves to an actual
array, `getRaster` issues one plane read per active selection at the
selection with Y and X opened — additionally opening the final axis when
the array is RGB-interleaved, or else (only when not RGB-interleaved)
the axis before Y when it is packed-multichannel — and returns width and
height taken from the resolved array's shape at the X and Y positions,
independent of the buffers the store returns. -/
theorem getRaster_spec (l : Loader) (z : Option Nat) (a : ZarrArr)
    (hsrc : getSource l z = SourceVal.arr a) :
    getRaster l z = some
      { data :=
          if isUnchunkedMultiChannel l then
            decodeChannels l ((l.channelSelections.map (fun key =>
              a.getRaw (rasterKeyAmended l key))).headD [])
          else
            l.channelSelections.map (fun key => a.getRaw (rasterKeyAmended l key))
        width := a.shape.getD l.xIndex 0
        height := a.shape.getD l.yIndex 0 } :=
  getRasterEq l z a hsrc

/-- C2 (witness): the loader over the non-packed `multiArr` resolves its
source, and its raster read returns the per-selection plane reads with
width and height 4 from the shape. -/
theorem getRaster_spec_witness :
    getSource multiLoader none = SourceVal.arr multiArr ∧
    getRaster multiLoader none = some
      { data := multiLoader.channelSelections.map (fun key =>
          multiArr.getRaw (rasterKeyAmended multiLoader key))
        width := multiArr.shape.getD multiLoader.xIndex 0
        height := multiArr.shape.getD multiLoader.yIndex 0 } ∧
    getRaster multiLoader none =
      some ⟨[[0, -7, -7], [1, -7, -7], [2, -7, -7]], 4, 4⟩ :=
  ⟨rfl, getRaster_spec multiLoader none multiArr rfl, rfl⟩

/-- C3: the channel-splitting routine, on a buffer whose length is an exact
multiple of the packed channel count `C` (the chunk shape at the axis
before Y), returns exactly `C` views, view `i` being the sub-range
`[i*(L/C), (i+1)*(L/C))` of the buffer, each of length `L/C`; their
in-order concatenation is the whole buffer, so they are pairwise
non-overlapping and together cover it. -/
theorem decodeChannels_spec (l : Loader) (buf : List Int)
    (_hC : 0 < l.base.chunks.getD (l.yIndex - 1) 0)
    (hdvd : l.base.chunks.getD (l.yIndex - 1) 0 ∣ buf.length) :
    (decodeChannels l buf).length = l.base.chunks.getD (l.yIndex - 1) 0 ∧
    (∀ i : Nat, i < l.base.chunks.getD (l.yIndex - 1) 0 →
      (decodeChannels l buf)[i]? =
        some ((buf.drop (i * (buf.length / l.base.chunks.getD (l.yIndex - 1) 0))).take
          (buf.length / l.base.chunks.getD (l.yIndex - 1) 0))) ∧
    (∀ i : Nat, i < l.base.chunks.getD (l.yIndex - 1) 0 →
      ((decodeChannels l buf).getD i []).length =
        buf.length / l.base.chunks.getD (l.yIndex - 1) 0) ∧
    (decodeChannels l buf).flatten = buf := by
  have hL : buf.length = l.base.chunks.getD (l.yIndex - 1) 0 *
      (buf.length / l.base.chunks.getD (l.yIndex - 1) 0) :=
    (Nat.mul_div_cancel' hdvd).symm
  refine ⟨by unfold decodeChannels; simp, ?_, ?_, ?_⟩
  · intro i hi
    rw [decodeChannels_getElem l buf i hi, Nat.mul_comm]
  · intro i hi
    rw [List.getD, List.get?_eq_getElem?, decodeChannels_getElem l buf i hi]
    simp only [Option.getD_some, List.length_take, List.length_drop]
    have hle : (buf.length / l.base.chunks.getD (l.yIndex - 1) 0) * i +
        buf.length / l.base.chunks.getD (l.yIndex - 1) 0 ≤ buf.length := by
      calc (buf.length / l.base.chunks.getD (l.yIndex - 1) 0) * i +
            buf.length / l.base.chunks.getD (l.yIndex - 1) 0 =
          (buf.length / l.base.chunks.getD (l.yIndex - 1) 0) * (i + 1) := by
            rw [Nat.mul_succ]
        _ ≤ (buf.length / l.base.chunks.getD (l.yIndex - 1) 0) *
            l.base.chunks.getD (l.yIndex - 1) 0 :=
          Nat.mul_le_mul_left _ (by omega)
        _ = buf.length := Nat.div_mul_cancel hdvd
    omega
  · unfold decodeChannels
    exact flatten_take_chunks _ _ _ (by omega)

/-- C3 (witness): the spec's example — a buffer of length 12 with packed
channel count 3 splits into three views of length 4 covering the three
consecutive quarters of the buffer. -/
theorem decodeChannels_spec_witness :
    (0 < splitLoader.base.chunks.getD (splitLoader.yIndex - 1) 0 ∧
      splitLoader.base.chunks.getD (splitLoader.yIndex - 1) 0 ∣
        ([0, 1, 2, 3, 4, 5, 6, 7, 8, 9, 10, 11] : List Int).length) ∧
    ((decodeChannels splitLoader [0, 1, 2, 3, 4, 5, 6, 7, 8, 9, 10, 11]).length =
        splitLoader.base.chunks.getD (splitLoader.yIndex - 1) 0 ∧
      (∀ i : Nat, i < splitLoader.base.chunks.getD (splitLoader.yIndex - 1) 0 →
        (decodeChannels splitLoader [0, 1, 2, 3, 4, 5, 6, 7, 8, 9, 10, 11])[i]? =
          some ((([0, 1, 2, 3, 4, 5, 6, 7, 8, 9, 10, 11] : List Int).drop
            (i * (([0, 1, 2, 3, 4, 5, 6, 7, 8, 9, 10, 11] : List Int).length /
              splitLoader.base.chunks.getD (splitLoader.yIndex - 1) 0))).take
            (([0, 1, 2, 3, 4, 5, 6, 7, 8, 9, 10, 11] : List Int).length /
              splitLoader.base.chunks.getD (splitLoader.yIndex - 1) 0))) ∧
      (∀ i : Nat, i < splitLoader.base.chunks.getD (splitLoader.yIndex - 1) 0 →
        ((decodeChannels splitLoader [0, 1, 2, 3, 4, 5, 6, 7, 8, 9, 10, 11]).getD i []).length =
          ([0, 1, 2, 3, 4, 5, 6, 7, 8, 9, 10, 11] : List Int).length /
            splitLoader.base.chunks.getD (splitLoader.yIndex - 1) 0) ∧
      (decodeChannels splitLoader [0, 1, 2, 3, 4, 5, 6, 7, 8, 9, 10, 11]).flatten =
        [0, 1, 2, 3, 4, 5, 6, 7, 8, 9, 10, 11]) ∧
    decodeChannels splitLoader [0, 1, 2, 3, 4, 5, 6, 7, 8, 9, 10, 11] =
      [[0, 1, 2, 3], [4, 5, 6, 7], [8, 9, 10, 11]] :=
  ⟨⟨by decide, by decide⟩,
   decodeChannels_spec splitLoader [0, 1, 2, 3, 4, 5, 6, 7, 8, 9, 10, 11]
     (by decide) (by decide),
   rfl⟩

/-- C4: whenever the normalization stage of `setChannelSelections` succeeds
with a list `next` and either (a) the array is RGB-interleaved or
packed-multichannel while `next` has more than one element, or (b) some
selection's length differs from the base array's rank, or (c) some
selection has a nonzero entry at an axis whose chunk shape exceeds 1, the
call fails and the previously active selection set (indeed the whole
loader state) is left unchanged. -/
theorem setChannelSelections_error_spec
    (normalize : List String → List SelEntry → Except String (List Int))
    (l : Loader) (input : SelInput) (next : List (List Int))
    (hnorm : normalizeInput normalize l input = Except.ok next)
    (hbad :
      ((l.isRgb = true ∨ isUnchunkedMultiChannel l = true) ∧ 1 < next.length) ∨
      (∃ sel ∈ next, sel.length ≠ l.base.shape.length) ∨
      (∃ sel ∈ next, ∃ i : Nat, i < sel.length ∧ sel.getD i 0 ≠ 0 ∧
        1 < l.base.chunks.getD i 0)) :
    (setChannelSelections normalize l input).2.isSome = true ∧
    (setChannelSelections normalize l input).1 = l := by
  have hstep : setChannelSelections normalize l input =
      (if (l.isRgb || isUnchunkedMultiChannel l) && next.length > 1 then
        (l, some "Cannot specify multiple channel selections for RGB/A image or multichannel image with chunk sizes greater than one.")
      else
        match validateSelections l next with
        | some e => (l, some e)
        | none => ({ l with channelSelections := next }, none)) := by
    unfold setChannelSelections
    rw [hnorm]
  rw [hstep]
  by_cases hcard :
      ((l.isRgb || isUnchunkedMultiChannel l) && decide (next.length > 1)) = true
  · rw [if_pos hcard]
    exact ⟨rfl, rfl⟩
  · rw [if_neg hcard]
    have hvs : (validateSelections l next).isSome = true := by
      rcases hbad with ⟨hflag, hlen⟩ | hrest
      · exfalso
        apply hcard
        simp only [Bool.and_eq_true, Bool.or_eq_true, decide_eq_true_eq]
        refine ⟨?_, hlen⟩
        rcases hflag with hf | hf
        · exact Or.inl hf
        · exact Or.inr hf
      · apply validateSelections_isSome
        rcases hrest with ⟨sel, hm, hl⟩ | ⟨sel, hm, hc⟩
        · exact ⟨sel, hm, Or.inl hl⟩
        · exact ⟨sel, hm, Or.inr hc⟩
    cases hv : validateSelections l next with
    | some e => exact ⟨rfl, rfl⟩
    | none => rw [hv] at hvs; exact absurd hvs (by simp)

/-- C4 (witness): a selection of length 2 against the rank-3 `multiArr`
loader normalizes successfully, violates the shape rule, and the call
fails leaving the loader unchanged. -/
theorem setChannelSelections_error_spec_witness :
    normalizeInput (fun _ _ => Except.error "unused") multiLoader0
        (SelInput.single [SelEntry.num 0, SelEntry.num 0]) =
      Except.ok [[0, 0]] ∧
    (∃ sel ∈ [([0, 0] : List Int)], sel.length ≠ multiLoader0.base.shape.length) ∧
    ((setChannelSelections (fun _ _ => Except.error "unused") multiLoader0
        (SelInput.single [SelEntry.num 0, SelEntry.num 0])).2.isSome = true ∧
      (setChannelSelections (fun _ _ => Except.error "unused") multiLoader0
        (SelInput.single [SelEntry.num 0, SelEntry.num 0])).1 = multiLoader0) :=
  ⟨rfl, by decide,
   setChannelSelections_error_spec (fun _ _ => Except.error "unused") multiLoader0
     (SelInput.single [SelEntry.num 0, SelEntry.num 0]) [[0, 0]] rfl
     (Or.inr (Or.inl (by decide)))⟩

/-- C5: in every reachable loader state — after construction and after any
sequence of successful or failed `setChannelSelections` calls — every
active channel selection has length equal to the base array's rank and
entry exactly 0 at every axis whose base chunk shape exceeds 1. -/
theorem reachable_selection_invariant (l : Loader) (h : Reachable l) :
    ∀ sel ∈ l.channelSelections,
      sel.length = l.base.shape.length ∧
      ∀ i : Nat, 1 < l.base.chunks.getD i 0 → sel.getD i 0 = 0 := by
  induction h with
  | construct g data dims r s t l0 hmk =>
    obtain ⟨_, h2, _⟩ := mkLoader_ok _ _ _ _ _ _ _ hmk
    intro sel hsel
    rw [h2, List.mem_singleton] at hsel
    subst hsel
    refine ⟨List.length_replicate _ _, ?_⟩
    intro i _
    exact getD_replicate_zero _ _
  | update normalize l0 input _ ih =>
    cases hn : normalizeInput normalize l0 input with
    | error e =>
      have hres : (setChannelSelections normalize l0 input).1 = l0 := by
        unfold setChannelSelections
        rw [hn]
      rw [hres]
      exact ih
    | ok next =>
      have hstep : setChannelSelections normalize l0 input =
          (if (l0.isRgb || isUnchunkedMultiChannel l0) && next.length > 1 then
            (l0, some "Cannot specify multiple channel selections for RGB/A image or multichannel image with chunk sizes greater than one.")
          else
            match validateSelections l0 next with
            | some e => (l0, some e)
            | none => ({ l0 with channelSelections := next }, none)) := by
        unfold setChannelSelections
        rw [hn]
      by_cases hcard :
          ((l0.isRgb || isUnchunkedMultiChannel l0) && decide (next.length > 1)) = true
      · rw [hstep, if_pos hcard]
        exact ih
      · cases hv : validateSelections l0 next with
        | some e =>
          rw [hstep, if_neg hcard, hv]
          exact ih
        | none =>
          rw [hstep, if_neg hcard, hv]
          intro sel hsel
          exact validateSelections_none l0 next hv sel hsel

/-- C5 (witness): the freshly constructed loader over `multiArr` is
reachable, its selection list is `[[0, 0, 0]]`, and applying the invariant
to the member `[0, 0, 0]` gives the rank equality. -/
theorem reachable_selection_invariant_witness :
    Reachable multiLoader0 ∧
    ([0, 0, 0] : List Int) ∈ multiLoader0.channelSelections ∧
    ([0, 0, 0] : List Int).length = multiLoader0.base.shape.length :=
  ⟨Reachable.construct (fun _ => false) (ZarrData.single multiArr) none none 1
      [0, 0] multiLoader0 rfl,
   by decide,
   (reachable_selection_invariant multiLoader0
     (Reachable.construct (fun _ => false) (ZarrData.single multiArr) none none 1
       [0, 0] multiLoader0 rfl)
     [0, 0, 0] (by decide)).1⟩

/-- C6 (counterexample): on a pyramid loader with the level omitted, the
resolver does not return "the single array" — the unchecked cast hands back
the raw pyramid list itself, which is not an array value at all. -/
theorem getSource_pyramid_none_counterexample :
    pyrLoader.isPyramid = true ∧
    getSource pyrLoader none = SourceVal.arrList [pyrArrA, pyrArrB] ∧
    ¬ ∃ a : ZarrArr, getSource pyrLoader none = SourceVal.arr a := by
  refine ⟨rfl, rfl, ?_⟩
  rintro ⟨a, h⟩
  have h2 : SourceVal.arrList [pyrArrA, pyrArrB] = SourceVal.arr a := h
  exact SourceVal.noConfusion h2

/-- C6 (amended): the resolver returns the single array whenever the loader
holds one (whatever the level); with a level given on a pyramid it returns
the element at that index with no range validation (an out-of-range index
yields the undefined value, surfaced downstream); with the level omitted on
a pyramid it returns the raw pyramid sequence itself. -/
theorem getSource_spec (l : Loader) (z : Option Nat) :
    (∀ a : ZarrArr, l.data = ZarrData.single a → getSource l z = SourceVal.arr a) ∧
    (∀ (arrs : List ZarrArr) (k : Nat), l.data = ZarrData.pyramid arrs →
      z = some k →
      getSource l z = (match arrs[k]? with
        | some a => SourceVal.arr a
        | none => SourceVal.undef)) ∧
    (∀ arrs : List ZarrArr, l.data = ZarrData.pyramid arrs → z = none →
      getSource l z = SourceVal.arrList arrs) := by
  refine ⟨?_, ?_, ?_⟩
  · intro a hd
    cases z <;> simp [getSource, hd]
  · intro arrs k hd hz
    subst hz
    simp [getSource, hd]
  · intro arrs hd hz
    subst hz
    simp [getSource, hd]

/-- C6 (witness): on the concrete two-level pyramid, level 1 resolves to
the second array and the out-of-range level 5 resolves to the undefined
value (no validation in the resolver). -/
theorem getSource_spec_witness :
    pyrLoader.data = ZarrData.pyramid [pyrArrA, pyrArrB] ∧
    getSource pyrLoader (some 1) = SourceVal.arr pyrArrB ∧
    getSource pyrLoader (some 5) = SourceVal.undef :=
  ⟨rfl,
   (getSource_spec pyrLoader (some 1)).2.1 [pyrArrA, pyrArrB] 1 rfl rfl,
   (getSource_spec pyrLoader (some 5)).2.1 [pyrArrA, pyrArrB] 5 rfl rfl⟩

/-- C7: the read-failure hook returns normally exactly when the error is
the store's distinguishable out-of-bounds condition (message containing
`RangeError`), and otherwise rethrows the very same error value. -/
theorem onTileError_spec (e : ErrVal) :
    (onTileError e = none ↔ isOutOfBoundsErr e = true) ∧
    (isOutOfBoundsErr e = false → onTileError e = some e) := by
  unfold onTileError isOutOfBoundsErr
  cases h : strIncludes e.message "RangeError".toList <;> simp [h]

/-- C7 (witness): the out-of-bounds error is swallowed; the network error
is rethrown unchanged. -/
theorem onTileError_spec_witness :
    isOutOfBoundsErr oobErr = true ∧
    onTileError oobErr = none ∧
    isOutOfBoundsErr otherErr = false ∧
    onTileError otherErr = some otherErr :=
  ⟨by decide, (onTileError_spec oobErr).1.mpr (by decide), by decide,
   (onTileError_spec otherErr).2 (by decide)⟩

/-- C9 (counterexample): a freshly constructed non-packed loader does not
always return exactly one buffer — on a pyramid with the level omitted the
resolver hands back a non-array value and the read produces no buffers at
all (a runtime type failure in JS). -/
theorem fresh_pyramid_read_counterexample :
    mkLoader (fun _ => false) (ZarrData.pyramid [pyrArrA, pyrArrB]) none none 1
      [0, 0] = Except.ok pyrLoader ∧
    isUnchunkedMultiChannel pyrLoader = false ∧
    pyrLoader.channelSelections.length = 1 ∧
    getTile pyrLoader 0 0 none = none ∧
    getRaster pyrLoader none = none :=
  ⟨rfl, rfl, rfl, rfl, rfl⟩

/-- C9 (amended): immediately after a successful construction the active
selection set is exactly one all-zeros vector of the base array's rank;
consequently, on a non-packed fresh loader, any tile or raster request
whose level resolves to an actual array issues exactly one store read and
returns exactly one buffer. -/
theorem fresh_loader_spec (g : List Nat → Bool) (data : ZarrData)
    (dims : Option (List String)) (r : Option Bool) (s : Int) (t : List Int)
    (l : Loader) (hmk : mkLoader g data dims r s t = Except.ok l) :
    l.channelSelections = [List.replicate l.base.shape.length 0] ∧
    ∀ (x y : Int) (z : Option Nat) (a : ZarrArr),
      isUnchunkedMultiChannel l = false →
      getSource l z = SourceVal.arr a →
      getTile l x y z = some [a.getRawChunk
        (((List.replicate l.base.shape.length 0).set l.yIndex y).set l.xIndex x)] ∧
      (getRaster l z).map (fun rd => rd.data.length) = some 1 := by
  obtain ⟨_, h2, _⟩ := mkLoader_ok _ _ _ _ _ _ _ hmk
  refine ⟨h2, ?_⟩
  intro x y z a hnp hsrc
  constructor
  · rw [getTileEq l x y z a hsrc hnp, h2]
    rfl
  · rw [getRasterEq l z a hsrc]
    simp [hnp, h2]

/-- C9 (witness): the fresh loader over the single non-packed `multiArr`
has the all-zeros selection and a tile request returns exactly the one
chunk read. -/
theorem fresh_loader_spec_witness :
    mkLoader (fun _ => false) (ZarrData.single multiArr) none none 1 [0, 0] =
      Except.ok multiLoader0 ∧
    isUnchunkedMultiChannel multiLoader0 = false ∧
    multiLoader0.channelSelections = [[0, 0, 0]] ∧
    getTile multiLoader0 1 2 none = some [multiArr.getRawChunk
      (((List.replicate multiLoader0.base.shape.length 0).set multiLoader0.yIndex
        2).set multiLoader0.xIndex 1)] ∧
    getTile multiLoader0 1 2 none = some [[0, 2, 1, 100]] :=
  ⟨rfl, rfl, rfl,
   ((fresh_loader_spec (fun _ => false) (ZarrData.single multiArr) none none 1
     [0, 0] multiLoader0 rfl).2 1 2 none multiArr rfl rfl).1,
   rfl⟩

/-- C10: the interleaved-layout flag is computed by the heuristic whenever
the constructor's `isRgb` argument is omitted or `false` — supplying
`false` yields a loader construction indistinguishable from omitting the
argument, so only `true` overrides the heuristic, whose value the flag
takes otherwise. -/
theorem isRgb_flag_spec (g : List Nat → Bool) (data : ZarrData)
    (dims : Option (List String)) (s : Int) (t : List Int) :
    mkLoader g data dims (some false) s t = mkLoader g data dims none s t ∧
    (∀ l : Loader, mkLoader g data dims none s t = Except.ok l →
      l.isRgb = g l.base.shape) ∧
    (∀ l : Loader, mkLoader g data dims (some true) s t = Except.ok l →
      l.isRgb = true) := by
  refine ⟨?_, ?_, ?_⟩
  · cases data <;> rfl
  · intro l h
    exact (mkLoader_ok _ _ _ _ _ _ _ h).2.2
  · intro l h
    exact (mkLoader_ok _ _ _ _ _ _ _ h).2.2

/-- C10 (witness): with a heuristic that always guesses interleaved,
passing `false` builds the same loader as omitting the argument, and the
resulting flag is the heuristic's value `true`. -/
theorem isRgb_flag_spec_witness :
    mkLoader (fun _ => true) (ZarrData.single multiArr) none (some false) 1 [0, 0] =
      mkLoader (fun _ => true) (ZarrData.single multiArr) none none 1 [0, 0] ∧
    ((mkLoader (fun _ => true) (ZarrData.single multiArr) none none 1
      [0, 0]).toOption.getD junkLoader).isRgb = true :=
  ⟨(isRgb_flag_spec (fun _ => true) (ZarrData.single multiArr) none 1 [0, 0]).1,
   (isRgb_flag_spec (fun _ => true) (ZarrData.single multiArr) none 1 [0, 0]).2.1
     ((mkLoader (fun _ => true) (ZarrData.single multiArr) none none 1
       [0, 0]).toOption.getD junkLoader) rfl⟩
